import Mathlib

/-!
Verification of the androidbinary decoder (main.go and the typed-value
facade file) against its specification.

The byte source is a `List Nat` of byte values; Go `io.SectionReader`
windows are modeled by `SRdr`, a window of absolute positions into that
list.  Machine integers are `Nat` with explicit `% 2^w` at the few points
where Go unsigned arithmetic can wrap.  Fallible reads return `Option`
(a failed `binary.Read` maps to `none`); decoder results are
`Except DErr`, where `DErr.eof` stands for the read errors that
`binary.Read` reports, `DErr.panic` for Go runtime panics
(index out of range, nil dereference), and `DErr.noFuel` for exhaustion
of the fuel that makes the unbounded chunk recursion of the source a
total function.  Go strings are Lean strings; invalid UTF-8 byte
sequences, which Go keeps as raw bytes inside a string, are modeled with
U+FFFD replacement characters.  Go map iteration (which has unspecified
order) is modeled by association lists in insertion order.
-/

/-- Decoder-level failures: read errors, runtime panics, and fuel exhaustion. -/
inductive DErr where
  | eof
  | panic
  | noFuel
deriving DecidableEq, Repr

/-- Window of absolute byte positions, modelling a Go io.SectionReader over the byte source. -/
structure SRdr where
  base : Nat
  stop : Nat
deriving DecidableEq, Repr

/-- Model of io.NewSectionReader(sr, off, n): a sub-window of sr starting off bytes in, of at most n bytes (n clipped at zero as Go does for a negative length). -/
def subSR (sr : SRdr) (off : Nat) (n : Nat) : SRdr :=
  ⟨sr.base + off, min sr.stop (sr.base + off + n)⟩

/-- Window covering the whole byte source, modelling the ReaderAt passed to NewFile. -/
def fullSR (bytes : List Nat) : SRdr :=
  ⟨0, bytes.length⟩

/-- Read one byte at window-relative position i; none models an io read error. -/
def readU8 (bytes : List Nat) (sr : SRdr) (i : Nat) : Option Nat :=
  if sr.base + i < sr.stop then bytes.get? (sr.base + i) else none

/-- Read a little-endian u16 (binary.Read with binary.LittleEndian). -/
def readU16le (bytes : List Nat) (sr : SRdr) (i : Nat) : Option Nat := do
  let a ← readU8 bytes sr i
  let b ← readU8 bytes sr (i + 1)
  pure (a + 256 * b)

/-- Read a little-endian u32. -/
def readU32le (bytes : List Nat) (sr : SRdr) (i : Nat) : Option Nat := do
  let a ← readU16le bytes sr i
  let b ← readU16le bytes sr (i + 2)
  pure (a + 65536 * b)

/-- Read count consecutive bytes (binary.Read into a byte slice is all-or-nothing). -/
def readU8s (bytes : List Nat) (sr : SRdr) (i : Nat) : Nat → Option (List Nat)
  | 0 => some []
  | n + 1 => do
    let a ← readU8 bytes sr i
    let rest ← readU8s bytes sr (i + 1) n
    pure (a :: rest)

/-- Read count consecutive little-endian u16 values. -/
def readU16s (bytes : List Nat) (sr : SRdr) (i : Nat) : Nat → Option (List Nat)
  | 0 => some []
  | n + 1 => do
    let a ← readU16le bytes sr i
    let rest ← readU16s bytes sr (i + 2) n
    pure (a :: rest)

/-- Read count consecutive little-endian u32 values. -/
def readU32s (bytes : List Nat) (sr : SRdr) (i : Nat) : Nat → Option (List Nat)
  | 0 => some []
  | n + 1 => do
    let a ← readU32le bytes sr i
    let rest ← readU32s bytes sr (i + 2 + 2) n
    pure (a :: rest)

/-- Lift a read result into the decoder error monad. -/
def liftO : Option α → Except DErr α
  | some a => .ok a
  | none => .error .eof

/- Chunk type constants from main.go. -/

def RES_NULL_TYPE : Nat := 0x0000
def RES_STRING_POOL_TYPE : Nat := 0x0001
def RES_TABLE_TYPE : Nat := 0x0002
def RES_XML_TYPE : Nat := 0x0003
def RES_XML_FIRST_CHUNK_TYPE : Nat := 0x0100
def RES_XML_START_NAMESPACE_TYPE : Nat := 0x0100
def RES_XML_END_NAMESPACE_TYPE : Nat := 0x0101
def RES_XML_START_ELEMENT_TYPE : Nat := 0x0102
def RES_XML_END_ELEMENT_TYPE : Nat := 0x0103
def RES_XML_CDATA_TYPE : Nat := 0x0104
def RES_XML_LAST_CHUNK_TYPE : Nat := 0x017f
def RES_XML_RESOURCE_MAP_TYPE : Nat := 0x0180
def RES_TABLE_PACKAGE_TYPE : Nat := 0x0200
def RES_TABLE_TYPE_TYPE : Nat := 0x0201
def RES_TABLE_TYPE_SPEC_TYPE : Nat := 0x0202

def SORTED_FLAG : Nat := 1
def UTF8_FLAG : Nat := 256

/-- Sentinel string-pool reference 0xFFFFFFFF (NilResStringPoolRef). -/
def NilResStringPoolRef : Nat := 0xFFFFFFFF

/- Value type constants from main.go. -/

def TYPE_NULL : Nat := 0x00
def TYPE_REFERENCE : Nat := 0x01
def TYPE_ATTRIBUTE : Nat := 0x02
def TYPE_STRING : Nat := 0x03
def TYPE_FLOAT : Nat := 0x04
def TYPE_DIMENSION : Nat := 0x05
def TYPE_FRACTION : Nat := 0x06
def TYPE_FIRST_INT : Nat := 0x10
def TYPE_INT_DEC : Nat := 0x10
def TYPE_INT_HEX : Nat := 0x11
def TYPE_INT_BOOLEAN : Nat := 0x12
def TYPE_FIRST_COLOR_INT : Nat := 0x1c
def TYPE_INT_COLOR_ARGB8 : Nat := 0x1c
def TYPE_INT_COLOR_RGB8 : Nat := 0x1d
def TYPE_INT_COLOR_ARGB4 : Nat := 0x1e
def TYPE_INT_COLOR_RGB4 : Nat := 0x1f
def TYPE_LAST_COLOR_INT : Nat := 0x1f
def TYPE_LAST_INT : Nat := 0x1f

/-- ResChunkHeader: type u16, headerSize u16, size u32 (8 bytes). -/
structure ResChunkHeader where
  type : Nat
  headerSize : Nat
  size : Nat
deriving DecidableEq, Repr

def zeroResChunkHeader : ResChunkHeader := ⟨0, 0, 0⟩

/-- ResStringPoolHeader (28 bytes). -/
structure ResStringPoolHeader where
  header : ResChunkHeader
  stringCount : Nat
  styleCount : Nat
  flags : Nat
  stringStart : Nat
  stylesStart : Nat
deriving DecidableEq, Repr

def zeroResStringPoolHeader : ResStringPoolHeader :=
  ⟨zeroResChunkHeader, 0, 0, 0, 0, 0⟩

/-- ResStringPool: decoded header plus string and style lists. -/
structure ResStringPool where
  header : ResStringPoolHeader
  strings : List String
  styles : List String
deriving DecidableEq, Repr

/-- ResXMLTreeNode (16 bytes): chunk header, line number, comment ref. -/
structure ResXMLTreeNode where
  header : ResChunkHeader
  lineNumber : Nat
  comment : Nat
deriving DecidableEq, Repr

def zeroResXMLTreeNode : ResXMLTreeNode := ⟨zeroResChunkHeader, 0, 0⟩

/-- ResXMLTreeNamespaceExt (8 bytes): prefix ref then uri ref. -/
structure ResXMLTreeNamespaceExt where
  pfx : Nat
  uri : Nat
deriving DecidableEq, Repr

def zeroResXMLTreeNamespaceExt : ResXMLTreeNamespaceExt := ⟨0, 0⟩

/-- ResXMLTreeAttrExt (20 bytes). -/
structure ResXMLTreeAttrExt where
  ns : Nat
  name : Nat
  attributeStart : Nat
  attributeSize : Nat
  attributeCount : Nat
  idIndex : Nat
  classIndex : Nat
  styleIndex : Nat
deriving DecidableEq, Repr

def zeroResXMLTreeAttrExt : ResXMLTreeAttrExt := ⟨0, 0, 0, 0, 0, 0, 0, 0⟩

/-- ResValue (8 bytes): size u16, res0 u8, dataType u8, data u32. -/
structure ResValue where
  size : Nat
  res0 : Nat
  dataType : Nat
  data : Nat
deriving DecidableEq, Repr

def zeroResValue : ResValue := ⟨0, 0, 0, 0⟩

/-- ResXMLTreeAttribute (20 bytes). -/
structure ResXMLTreeAttribute where
  ns : Nat
  name : Nat
  rawValue : Nat
  typedValue : ResValue
deriving DecidableEq, Repr

def zeroResXMLTreeAttribute : ResXMLTreeAttribute := ⟨0, 0, 0, zeroResValue⟩

/-- ResXMLTreeEndElementExt (8 bytes). -/
structure ResXMLTreeEndElementExt where
  ns : Nat
  name : Nat
deriving DecidableEq, Repr

def zeroResXMLTreeEndElementExt : ResXMLTreeEndElementExt := ⟨0, 0⟩

/-- ResTableHeader (12 bytes): chunk header plus package count. -/
structure ResTableHeader where
  header : ResChunkHeader
  packageCount : Nat
deriving DecidableEq, Repr

def zeroResTableHeader : ResTableHeader := ⟨zeroResChunkHeader, 0⟩

/-- ResTablePackage (284 bytes); name is the fixed 128-unit UTF-16 array. -/
structure ResTablePackage where
  header : ResChunkHeader
  id : Nat
  name : List Nat
  typeStrings : Nat
  lastPublicType : Nat
  keyStrings : Nat
  lastPublicKey : Nat
deriving DecidableEq, Repr

def zeroResTablePackage : ResTablePackage :=
  ⟨zeroResChunkHeader, 0, List.replicate 128 0, 0, 0, 0, 0⟩

/-- ResTableConfig (36 bytes); the locale language and country are two bytes each. -/
structure ResTableConfig where
  size : Nat
  imsi : Nat
  lang0 : Nat
  lang1 : Nat
  country0 : Nat
  country1 : Nat
  screenType : Nat
  input : Nat
  screenSize : Nat
  version : Nat
  screenConfig : Nat
deriving DecidableEq, Repr

/-- ResTableType (56 bytes). -/
structure ResTableType where
  header : ResChunkHeader
  id : Nat
  res0 : Nat
  res1 : Nat
  entryCount : Nat
  entriesStart : Nat
  config : ResTableConfig
deriving DecidableEq, Repr

/-- ResTableEntry (8 bytes). -/
structure ResTableEntry where
  size : Nat
  flags : Nat
  key : Nat
deriving DecidableEq, Repr

def zeroResTableEntry : ResTableEntry := ⟨0, 0, 0⟩

/-- TableEntry: optional key and value pointers, plus a flags word (never set by this code). -/
structure TableEntry where
  key : Option ResTableEntry
  value : Option ResValue
  flags : Nat
deriving DecidableEq, Repr

/-- TableType: parsed type header and its entries. -/
structure TableType where
  header : ResTableType
  entries : List TableEntry
deriving DecidableEq, Repr

/-- ResTableTypeSpec (16 bytes). -/
structure ResTableTypeSpec where
  header : ResChunkHeader
  id : Nat
  res0 : Nat
  res1 : Nat
  entryCount : Nat
deriving DecidableEq, Repr

/-- TablePackage: package header, its two string pools and its table types. -/
structure TablePackage where
  header : ResTablePackage
  typeStrings : Option ResStringPool
  keyStrings : Option ResStringPool
  tableTypes : List TableType
deriving DecidableEq, Repr

/-- Zero value of TablePackage, as produced by the Go make of the package slice. -/
def zeroTablePackage : TablePackage :=
  ⟨zeroResTablePackage, none, none, []⟩

/-- The File structure of main.go.  Go nil maps are modeled with none / the empty list; the bytes.Buffer is a String. -/
structure File where
  stringPool : Option ResStringPool
  resourceMap : List Nat
  notPrecessedNS : Option (List (Nat × Nat))
  namespaces : List (Nat × Nat)
  XMLBuffer : String
  tablePackages : List TablePackage
deriving DecidableEq, Repr

/-- A freshly allocated File (new(File) in NewFile). -/
def initFile : File :=
  ⟨none, [], none, [], "", []⟩

/- Struct parsers.  Each models one binary.Read of the corresponding Go
struct: it consumes the exact little-endian layout and is all-or-nothing,
as binary.Read fills the destination only after a full read. -/

/-- Parse a ResChunkHeader at window-relative offset i. -/
def parseResChunkHeader (bytes : List Nat) (sr : SRdr) (i : Nat) : Option ResChunkHeader := do
  let t ← readU16le bytes sr i
  let hs ← readU16le bytes sr (i + 2)
  let sz ← readU32le bytes sr (i + 4)
  pure ⟨t, hs, sz⟩

/-- Parse a ResStringPoolHeader. -/
def parseResStringPoolHeader (bytes : List Nat) (sr : SRdr) (i : Nat) : Option ResStringPoolHeader := do
  let h ← parseResChunkHeader bytes sr i
  let sc ← readU32le bytes sr (i + 8)
  let stc ← readU32le bytes sr (i + 12)
  let fl ← readU32le bytes sr (i + 16)
  let ss ← readU32le bytes sr (i + 20)
  let sts ← readU32le bytes sr (i + 24)
  pure ⟨h, sc, stc, fl, ss, sts⟩

/-- Parse a ResXMLTreeNode. -/
def parseResXMLTreeNode (bytes : List Nat) (sr : SRdr) (i : Nat) : Option ResXMLTreeNode := do
  let h ← parseResChunkHeader bytes sr i
  let ln ← readU32le bytes sr (i + 8)
  let cm ← readU32le bytes sr (i + 12)
  pure ⟨h, ln, cm⟩

/-- Parse a ResXMLTreeNamespaceExt. -/
def parseResXMLTreeNamespaceExt (bytes : List Nat) (sr : SRdr) (i : Nat) : Option ResXMLTreeNamespaceExt := do
  let p ← readU32le bytes sr i
  let u ← readU32le bytes sr (i + 4)
  pure ⟨p, u⟩

/-- Parse a ResXMLTreeAttrExt. -/
def parseResXMLTreeAttrExt (bytes : List Nat) (sr : SRdr) (i : Nat) : Option ResXMLTreeAttrExt := do
  let ns ← readU32le bytes sr i
  let nm ← readU32le bytes sr (i + 4)
  let as0 ← readU16le bytes sr (i + 8)
  let asz ← readU16le bytes sr (i + 10)
  let ac ← readU16le bytes sr (i + 12)
  let idi ← readU16le bytes sr (i + 14)
  let ci ← readU16le bytes sr (i + 16)
  let si ← readU16le bytes sr (i + 18)
  pure ⟨ns, nm, as0, asz, ac, idi, ci, si⟩

/-- Parse a ResValue. -/
def parseResValue (bytes : List Nat) (sr : SRdr) (i : Nat) : Option ResValue := do
  let sz ← readU16le bytes sr i
  let r0 ← readU8 bytes sr (i + 2)
  let dt ← readU8 bytes sr (i + 3)
  let d ← readU32le bytes sr (i + 4)
  pure ⟨sz, r0, dt, d⟩

/-- Parse a ResXMLTreeAttribute. -/
def parseResXMLTreeAttribute (bytes : List Nat) (sr : SRdr) (i : Nat) : Option ResXMLTreeAttribute := do
  let ns ← readU32le bytes sr i
  let nm ← readU32le bytes sr (i + 4)
  let rv ← readU32le bytes sr (i + 8)
  let tv ← parseResValue bytes sr (i + 12)
  pure ⟨ns, nm, rv, tv⟩

/-- Parse a ResXMLTreeEndElementExt. -/
def parseResXMLTreeEndElementExt (bytes : List Nat) (sr : SRdr) (i : Nat) : Option ResXMLTreeEndElementExt := do
  let ns ← readU32le bytes sr i
  let nm ← readU32le bytes sr (i + 4)
  pure ⟨ns, nm⟩

/-- Parse a ResTableHeader. -/
def parseResTableHeader (bytes : List Nat) (sr : SRdr) (i : Nat) : Option ResTableHeader := do
  let h ← parseResChunkHeader bytes sr i
  let pc ← readU32le bytes sr (i + 8)
  pure ⟨h, pc⟩

/-- Parse a ResTablePackage header (284 bytes). -/
def parseResTablePackage (bytes : List Nat) (sr : SRdr) (i : Nat) : Option ResTablePackage := do
  let h ← parseResChunkHeader bytes sr i
  let id ← readU32le bytes sr (i + 8)
  let nm ← readU16s bytes sr (i + 12) 128
  let ts ← readU32le bytes sr (i + 268)
  let lpt ← readU32le bytes sr (i + 272)
  let ks ← readU32le bytes sr (i + 276)
  let lpk ← readU32le bytes sr (i + 280)
  pure ⟨h, id, nm, ts, lpt, ks, lpk⟩

/-- Parse a ResTableConfig (36 bytes). -/
def parseResTableConfig (bytes : List Nat) (sr : SRdr) (i : Nat) : Option ResTableConfig := do
  let sz ← readU32le bytes sr i
  let im ← readU32le bytes sr (i + 4)
  let l0 ← readU8 bytes sr (i + 8)
  let l1 ← readU8 bytes sr (i + 9)
  let c0 ← readU8 bytes sr (i + 10)
  let c1 ← readU8 bytes sr (i + 11)
  let st ← readU32le bytes sr (i + 12)
  let inp ← readU32le bytes sr (i + 16)
  let ssz ← readU32le bytes sr (i + 20)
  let ver ← readU32le bytes sr (i + 24)
  let scfg ← readU32le bytes sr (i + 28)
  pure ⟨sz, im, l0, l1, c0, c1, st, inp, ssz, ver, scfg⟩

/-- Parse a ResTableType header (56 bytes). -/
def parseResTableType (bytes : List Nat) (sr : SRdr) (i : Nat) : Option ResTableType := do
  let h ← parseResChunkHeader bytes sr i
  let id ← readU8 bytes sr (i + 8)
  let r0 ← readU8 bytes sr (i + 9)
  let r1 ← readU16le bytes sr (i + 10)
  let ec ← readU32le bytes sr (i + 12)
  let es ← readU32le bytes sr (i + 16)
  let cfg ← parseResTableConfig bytes sr (i + 20)
  pure ⟨h, id, r0, r1, ec, es, cfg⟩

/-- Parse a ResTableEntry (8 bytes). -/
def parseResTableEntry (bytes : List Nat) (sr : SRdr) (i : Nat) : Option ResTableEntry := do
  let sz ← readU16le bytes sr i
  let fl ← readU16le bytes sr (i + 2)
  let k ← readU32le bytes sr (i + 4)
  pure ⟨sz, fl, k⟩

/-- Parse a ResTableTypeSpec header (16 bytes). -/
def parseResTableTypeSpec (bytes : List Nat) (sr : SRdr) (i : Nat) : Option ResTableTypeSpec := do
  let h ← parseResChunkHeader bytes sr i
  let id ← readU8 bytes sr (i + 8)
  let r0 ← readU8 bytes sr (i + 9)
  let r1 ← readU16le bytes sr (i + 10)
  let ec ← readU32le bytes sr (i + 12)
  pure ⟨h, id, r0, r1, ec⟩

/- UTF-16 and UTF-8 decoding, modelling Go unicode/utf16.Decode and the
Go string([]byte) conversion.  Lean strings cannot hold lone surrogates
or invalid UTF-8 bytes, so those cases use U+FFFD, the value Go shows
when such a string is ranged over. -/

/-- Make a Char from a scalar value, with U+FFFD for invalid values. -/
def mkChar (n : Nat) : Char :=
  if n < 0xD800 ∨ (0xDFFF < n ∧ n < 0x110000) then Char.ofNat n
  else Char.ofNat 0xFFFD

/-- Model of Go utf16.Decode: combine surrogate pairs, replace lone surrogates. -/
def utf16Decode : List Nat → List Char
  | [] => []
  | u :: rest =>
    if u < 0xD800 ∨ 0xE000 ≤ u then mkChar u :: utf16Decode rest
    else if u < 0xDC00 then
      match rest with
      | v :: rest2 =>
        if 0xDC00 ≤ v ∧ v < 0xE000 then
          mkChar (0x10000 + (u - 0xD800) * 0x400 + (v - 0xDC00)) :: utf16Decode rest2
        else mkChar 0xFFFD :: utf16Decode (v :: rest2)
      | [] => [mkChar 0xFFFD]
    else mkChar 0xFFFD :: utf16Decode rest

/-- Model of the Go string([]byte) conversion as later consumed by the XML buffer: standard UTF-8 decoding with U+FFFD for invalid sequences. -/
def utf8Decode : List Nat → List Char
  | [] => []
  | b :: rest =>
    if b < 0x80 then mkChar b :: utf8Decode rest
    else if b < 0xC0 then mkChar 0xFFFD :: utf8Decode rest
    else if b < 0xE0 then
      match rest with
      | c1 :: r1 =>
        if 0x80 ≤ c1 ∧ c1 < 0xC0 then
          mkChar ((b - 0xC0) * 0x40 + (c1 - 0x80)) :: utf8Decode r1
        else mkChar 0xFFFD :: utf8Decode (c1 :: r1)
      | [] => [mkChar 0xFFFD]
    else if b < 0xF0 then
      match rest with
      | c1 :: c2 :: r2 =>
        if (0x80 ≤ c1 ∧ c1 < 0xC0) ∧ (0x80 ≤ c2 ∧ c2 < 0xC0) then
          mkChar ((b - 0xE0) * 0x1000 + (c1 - 0x80) * 0x40 + (c2 - 0x80)) :: utf8Decode r2
        else mkChar 0xFFFD :: utf8Decode (c1 :: c2 :: r2)
      | [_] => [mkChar 0xFFFD, mkChar 0xFFFD]
      | [] => [mkChar 0xFFFD]
    else if b < 0xF8 then
      match rest with
      | c1 :: c2 :: c3 :: r3 =>
        if (0x80 ≤ c1 ∧ c1 < 0xC0) ∧ (0x80 ≤ c2 ∧ c2 < 0xC0) ∧ (0x80 ≤ c3 ∧ c3 < 0xC0) then
          mkChar ((b - 0xF0) * 0x40000 + (c1 - 0x80) * 0x1000 + (c2 - 0x80) * 0x40 + (c3 - 0x80))
            :: utf8Decode r3
        else mkChar 0xFFFD :: utf8Decode (c1 :: c2 :: c3 :: r3)
      | [_, _] => [mkChar 0xFFFD, mkChar 0xFFFD, mkChar 0xFFFD]
      | [_] => [mkChar 0xFFFD, mkChar 0xFFFD]
      | [] => [mkChar 0xFFFD]
    else mkChar 0xFFFD :: utf8Decode rest

/-- ReadUTF16 from main.go: a 1-or-2 u16 length header (high bit of the first u16 selects the long form), then exactly that many code units, decoded as UTF-16LE. -/
def ReadUTF16 (bytes : List Nat) (sr : SRdr) (offset : Nat) : Except DErr String := do
  let first ← liftO (readU16le bytes sr offset)
  if first &&& 0x8000 ≠ 0 then
    let second ← liftO (readU16le bytes sr (offset + 2))
    let size := ((first &&& 0x7FFF) <<< 16) + second
    let buf ← liftO (readU16s bytes sr (offset + 4) size)
    pure (String.mk (utf16Decode buf))
  else
    let buf ← liftO (readU16s bytes sr (offset + 2) first)
    pure (String.mk (utf16Decode buf))

/-- ReadUTF8 from main.go: a single 1-or-2 byte length header (high bit of the first byte selects the long form), then exactly that many bytes. -/
def ReadUTF8 (bytes : List Nat) (sr : SRdr) (offset : Nat) : Except DErr String := do
  let first ← liftO (readU8 bytes sr offset)
  if first &&& 0x80 ≠ 0 then
    let second ← liftO (readU8 bytes sr (offset + 1))
    let size := ((first &&& 0x7F) <<< 8) + second
    let buf ← liftO (readU8s bytes sr (offset + 2) size)
    pure (String.mk (utf8Decode buf))
  else
    let buf ← liftO (readU8s bytes sr (offset + 1) first)
    pure (String.mk (utf8Decode buf))

/-- Read one 1-or-2 byte length value in the UTF-8 header encoding, returning it together with the offset after it.  Used only by the specification rendering of the UTF-8 string decoder. -/
def readLen8 (bytes : List Nat) (sr : SRdr) (offset : Nat) : Except DErr (Nat × Nat) := do
  let first ← liftO (readU8 bytes sr offset)
  if first &&& 0x80 ≠ 0 then
    let second ← liftO (readU8 bytes sr (offset + 1))
    pure (((first &&& 0x7F) <<< 8) + second, offset + 2)
  else
    pure (first, offset + 1)

/-- Rendering of the wording of the specification for UTF-8 strings (spec section 4.2 and claim C2): first a 1-to-2 byte character count, read and discarded for payload sizing, then a 1-to-2 byte byte length with the same encoding, then that many payload bytes.  Stated for comparison with ReadUTF8, which is translated from the source. -/
def ReadUTF8Spec (bytes : List Nat) (sr : SRdr) (offset : Nat) : Except DErr String := do
  let cc ← readLen8 bytes sr offset
  let bl ← readLen8 bytes sr cc.2
  let buf ← liftO (readU8s bytes sr bl.2 bl.1)
  pure (String.mk (utf8Decode buf))

/-- Per-string loop of ReadStringPool: decode each start offset (the u32 sum of the data base and the start wraps as Go uint32 addition does); a failed string read aborts the pool decode. -/
def readPoolStrings (bytes : List Nat) (sr : SRdr) (flags dataBase : Nat) :
    List Nat → Except DErr (List String)
  | [] => .ok []
  | start :: rest => do
    let s ←
      if flags &&& UTF8_FLAG = 0 then
        ReadUTF16 bytes sr ((dataBase + start) % 4294967296)
      else
        ReadUTF8 bytes sr ((dataBase + start) % 4294967296)
    let others ← readPoolStrings bytes sr flags dataBase rest
    pure (s :: others)

/-- ReadStringPool from main.go.  The header and the two start-offset arrays are read with unchecked binary.Read calls (a failed read leaves the zero value); each string read is checked. -/
def ReadStringPool (bytes : List Nat) (sr : SRdr) : Except DErr ResStringPool := do
  let hdr := (parseResStringPoolHeader bytes sr 0).getD zeroResStringPoolHeader
  let stringStarts :=
    (readU32s bytes sr 28 hdr.stringCount).getD (List.replicate hdr.stringCount 0)
  let styleStarts :=
    (readU32s bytes sr (28 + 4 * hdr.stringCount) hdr.styleCount).getD
      (List.replicate hdr.styleCount 0)
  let strings ← readPoolStrings bytes sr hdr.flags hdr.stringStart stringStarts
  let styles ← readPoolStrings bytes sr hdr.flags hdr.stylesStart styleStarts
  pure ⟨hdr, strings, styles⟩

/-- ReadResourceMap from main.go.  The count comes from wrapping uint32 subtraction of the header size from the chunk size; the array read is checked. -/
def ReadResourceMap (bytes : List Nat) (sr : SRdr) : Except DErr (List Nat) := do
  let hdr := (parseResChunkHeader bytes sr 0).getD zeroResChunkHeader
  let count := ((hdr.size + 4294967296 - hdr.headerSize % 65536) % 4294967296) / 4
  let m ← liftO (readU32s bytes sr 8 count)
  pure m

/-- GetString from main.go.  The sentinel reference yields the empty string; any other reference indexes the pool strings directly, and a missing pool (nil dereference) or an out-of-range index is a Go runtime panic. -/
def GetString (f : File) (ref : Nat) : Except DErr String :=
  if ref = NilResStringPoolRef then .ok ""
  else
    match f.stringPool with
    | none => .error .panic
    | some sp =>
      match sp.strings.get? ref with
      | some s => .ok s
      | none => .error .panic

/-- Go map read with the zero value for a missing key (f.namespaces[ns]). -/
def mapGet (m : List (Nat × Nat)) (k : Nat) : Nat :=
  ((m.find? (fun p => p.1 == k)).map Prod.snd).getD 0

/-- Go map insert (update in place or append). -/
def mapSet (m : List (Nat × Nat)) (k v : Nat) : List (Nat × Nat) :=
  match m with
  | [] => [(k, v)]
  | (k0, v0) :: rest => if k0 = k then (k, v) :: rest else (k0, v0) :: mapSet rest k v

/-- Go map delete. -/
def mapDel (m : List (Nat × Nat)) (k : Nat) : List (Nat × Nat) :=
  m.filter (fun p => p.1 != k)

/-- AddNamespace from main.go: qualify a name with the prefix registered for its namespace uri (a missing uri maps to the zero reference, as a Go map read does). -/
def AddNamespace (f : File) (ns name : Nat) : Except DErr String :=
  if ns ≠ NilResStringPoolRef then do
    let p ← GetString f (mapGet f.namespaces ns)
    let n ← GetString f name
    pure (p ++ ":" ++ n)
  else
    GetString f name

/-- Escaping of one character as done by encoding/xml.EscapeText. -/
def xmlEscapeChar (c : Char) : String :=
  if c = Char.ofNat 34 then "&#34;"
  else if c = Char.ofNat 39 then "&#39;"
  else if c = Char.ofNat 38 then "&amp;"
  else if c = Char.ofNat 60 then "&lt;"
  else if c = Char.ofNat 62 then "&gt;"
  else if c = Char.ofNat 9 then "&#x9;"
  else if c = Char.ofNat 10 then "&#xA;"
  else if c = Char.ofNat 13 then "&#xD;"
  else String.singleton c

/-- Model of xml.Escape over a whole string. -/
def xmlEscape (s : String) : String :=
  String.join (s.toList.map xmlEscapeChar)

/-- One uppercase hex digit. -/
def hexDigit (n : Nat) : Char :=
  if n < 10 then Char.ofNat (48 + n) else Char.ofNat (55 + n)

/-- Eight-digit uppercase hexadecimal of a u32, as produced by the %08X format verb. -/
def hex8 (n : Nat) : String :=
  String.mk ((List.range 8).reverse.map (fun i => hexDigit (n / 16 ^ i % 16)))

/-- Decimal rendering of a Nat, as produced by the %d format verb on a uint32. -/
def decimal (n : Nat) : String := toString n

/-- Attribute value rendering from ReadStartElement in main.go: the raw string if the raw value reference is set, otherwise a switch on the typed value data type.  Note the switch has no TYPE_STRING case, so string-typed values hit the default branch. -/
def renderAttrValue (f : File) (attr : ResXMLTreeAttribute) : Except DErr String :=
  if attr.rawValue ≠ NilResStringPoolRef then
    GetString f attr.rawValue
  else
    let data := attr.typedValue.data
    if attr.typedValue.dataType = TYPE_NULL then .ok ""
    else if attr.typedValue.dataType = TYPE_REFERENCE then .ok ("@0x" ++ hex8 data)
    else if attr.typedValue.dataType = TYPE_INT_DEC then .ok (decimal data)
    else if attr.typedValue.dataType = TYPE_INT_HEX then .ok ("0x" ++ hex8 data)
    else if attr.typedValue.dataType = TYPE_INT_BOOLEAN then
      .ok (if data ≠ 0 then "true" else "false")
    else .ok ("@0x" ++ hex8 data)

/-- ReadStartNamespace from main.go: record the uri-to-prefix binding in both the pending and the active namespace maps (reads unchecked, always returns nil). -/
def ReadStartNamespace (bytes : List Nat) (sr : SRdr) (f : File) : File × Except DErr Unit :=
  let node := (parseResXMLTreeNode bytes sr 0).getD zeroResXMLTreeNode
  let nsx := (parseResXMLTreeNamespaceExt bytes sr node.header.headerSize).getD
    zeroResXMLTreeNamespaceExt
  let f := { f with
    notPrecessedNS := some (mapSet (f.notPrecessedNS.getD []) nsx.uri nsx.pfx),
    namespaces := mapSet f.namespaces nsx.uri nsx.pfx }
  (f, .ok ())

/-- ReadEndNamespace from main.go: drop the binding from the active namespace map. -/
def ReadEndNamespace (bytes : List Nat) (sr : SRdr) (f : File) : File × Except DErr Unit :=
  let node := (parseResXMLTreeNode bytes sr 0).getD zeroResXMLTreeNode
  let nsx := (parseResXMLTreeNamespaceExt bytes sr node.header.headerSize).getD
    zeroResXMLTreeNamespaceExt
  ({ f with namespaces := mapDel f.namespaces nsx.uri }, .ok ())

/-- Emission of one pending xmlns declaration (the prefix string is resolved and written, then the escaped uri). -/
def emitNS1 (f : File) (uri pfx : Nat) : File × Except DErr Unit :=
  match GetString f pfx with
  | .error e => (f, .error e)
  | .ok p =>
    let f := { f with XMLBuffer := f.XMLBuffer ++ " xmlns:" ++ p ++ "=\"" }
    match GetString f uri with
    | .error e => (f, .error e)
    | .ok u => ({ f with XMLBuffer := f.XMLBuffer ++ xmlEscape u ++ "\"" }, .ok ())

/-- Emission of all pending xmlns declarations, in map order. -/
def emitNSList (f : File) : List (Nat × Nat) → File × Except DErr Unit
  | [] => (f, .ok ())
  | (uri, pfx) :: rest =>
    match emitNS1 f uri pfx with
    | (f, .ok _) => emitNSList f rest
    | (f, .error e) => (f, .error e)

/-- The pending-namespace block of ReadStartElement: if the map is non-nil, write each declaration and then set the map to nil. -/
def emitNamespaces (f : File) : File × Except DErr Unit :=
  match f.notPrecessedNS with
  | none => (f, .ok ())
  | some l =>
    match emitNSList f l with
    | (f, .ok _) => ({ f with notPrecessedNS := none }, .ok ())
    | (f, .error e) => (f, .error e)

/-- The attribute loop of ReadStartElement: parse each attribute at its offset (unchecked read), render its value, then write the qualified name and the escaped value; the cursor advances by attributeSize. -/
def attrLoop (bytes : List Nat) (sr : SRdr) (asize : Nat) :
    Nat → Nat → File → File × Except DErr Unit
  | 0, _, f => (f, .ok ())
  | i + 1, offset, f =>
    let attr := (parseResXMLTreeAttribute bytes sr offset).getD zeroResXMLTreeAttribute
    match renderAttrValue f attr with
    | .error e => (f, .error e)
    | .ok value =>
      match AddNamespace f attr.ns attr.name with
      | .error e => (f, .error e)
      | .ok qn =>
        let f := { f with XMLBuffer := f.XMLBuffer ++ " " ++ qn ++ "=\"" ++ xmlEscape value ++ "\"" }
        attrLoop bytes sr asize i (offset + asize) f

/-- ReadStartElement from main.go: header and extension reads are unchecked; the element tag, pending xmlns declarations, and attributes are written in order, and the attribute area offset is the uint16 sum of attributeStart and the header size. -/
def ReadStartElement (bytes : List Nat) (sr : SRdr) (f : File) : File × Except DErr Unit :=
  let node := (parseResXMLTreeNode bytes sr 0).getD zeroResXMLTreeNode
  let ext := (parseResXMLTreeAttrExt bytes sr node.header.headerSize).getD zeroResXMLTreeAttrExt
  match AddNamespace f ext.ns ext.name with
  | .error e => (f, .error e)
  | .ok qname =>
    let f := { f with XMLBuffer := f.XMLBuffer ++ "<" ++ qname }
    match emitNamespaces f with
    | (f, .error e) => (f, .error e)
    | (f, .ok _) =>
      let offset0 := (ext.attributeStart + node.header.headerSize) % 65536
      match attrLoop bytes sr ext.attributeSize ext.attributeCount offset0 f with
      | (f, .error e) => (f, .error e)
      | (f, .ok _) => ({ f with XMLBuffer := f.XMLBuffer ++ ">" }, .ok ())

/-- ReadEndElement from main.go: both reads are checked; the closing tag is then written. -/
def ReadEndElement (bytes : List Nat) (sr : SRdr) (f : File) : File × Except DErr Unit :=
  match parseResXMLTreeNode bytes sr 0 with
  | none => (f, .error .eof)
  | some node =>
    match parseResXMLTreeEndElementExt bytes sr node.header.headerSize with
    | none => (f, .error .eof)
    | some ext =>
      match AddNamespace f ext.ns ext.name with
      | .error e => (f, .error e)
      | .ok qn => ({ f with XMLBuffer := f.XMLBuffer ++ "</" ++ qn ++ ">" }, .ok ())

/-- Entry construction loop of ReadTableType: a 0xFFFFFFFF index marks an absent (sparse) slot; for present slots the key and value are parsed at the wrapping uint32 sum of entriesStart and the index, with unchecked reads (a failed read leaves the zero struct behind the stored pointer). -/
def buildEntries (bytes : List Nat) (sr : SRdr) (entriesStart : Nat) (indexes : List Nat) :
    List TableEntry :=
  indexes.map (fun index =>
    if index = 0xFFFFFFFF then ⟨none, none, 0⟩
    else
      let off := (entriesStart + index) % 4294967296
      let key := (parseResTableEntry bytes sr off).getD zeroResTableEntry
      let val := (parseResValue bytes sr (off + 8)).getD zeroResValue
      ⟨some key, some val, 0⟩)

/-- ReadTableType from main.go: checked header and index-array reads, then the entry loop. -/
def ReadTableType (bytes : List Nat) (sr : SRdr) : Except DErr TableType := do
  let hdr ← liftO (parseResTableType bytes sr 0)
  let entryIndexes ← liftO (readU32s bytes sr hdr.header.headerSize hdr.entryCount)
  pure ⟨hdr, buildEntries bytes sr hdr.entriesStart entryIndexes⟩

/-- ReadTableTypeSpec from main.go: checked header and flag-array reads. -/
def ReadTableTypeSpec (bytes : List Nat) (sr : SRdr) : Except DErr (List Nat) := do
  let hdr ← liftO (parseResTableTypeSpec bytes sr 0)
  let flags ← liftO (readU32s bytes sr hdr.header.headerSize hdr.entryCount)
  pure flags

/-- Sub-chunk loop of ReadTablePackage: TYPE chunks are decoded and appended, TYPE_SPEC chunks are decoded and discarded, anything else is skipped; the chunk-header read is checked and the cursor advances by the declared size.  The fuel argument makes the loop total; the source loop does not advance on a zero-size chunk. -/
def tpLoop (bytes : List Nat) (sr : SRdr) (size : Nat) :
    Nat → Nat → List TableType → Except DErr (List TableType)
  | 0, offset, acc => if offset < size then .error .noFuel else .ok acc
  | fuel + 1, offset, acc =>
    if offset < size then
      match parseResChunkHeader bytes sr offset with
      | none => .error .eof
      | some ch =>
        let chunkReader := subSR sr offset ch.size
        if ch.type = RES_TABLE_TYPE_TYPE then
          match ReadTableType bytes chunkReader with
          | .error e => .error e
          | .ok tt => tpLoop bytes sr size fuel (offset + ch.size) (acc ++ [tt])
        else if ch.type = RES_TABLE_TYPE_SPEC_TYPE then
          match ReadTableTypeSpec bytes chunkReader with
          | .error e => .error e
          | .ok _ => tpLoop bytes sr size fuel (offset + ch.size) acc
        else tpLoop bytes sr size fuel (offset + ch.size) acc
    else .ok acc

/-- ReadTablePackage from main.go: checked package-header read, then the two nested string-pool windows (their lengths are wrapping uint32 differences), then the sub-chunk loop. -/
def ReadTablePackage (fuel : Nat) (bytes : List Nat) (sr : SRdr) : Except DErr TablePackage := do
  let hdr ← liftO (parseResTablePackage bytes sr 0)
  let srTypes := subSR sr hdr.typeStrings ((hdr.header.size + 4294967296 - hdr.typeStrings) % 4294967296)
  let typeStrings ← ReadStringPool bytes srTypes
  let srKeys := subSR sr hdr.keyStrings ((hdr.header.size + 4294967296 - hdr.keyStrings) % 4294967296)
  let keyStrings ← ReadStringPool bytes srKeys
  let tts ← tpLoop bytes sr hdr.header.size fuel hdr.header.headerSize []
  pure ⟨hdr, some typeStrings, some keyStrings, tts⟩

/-- The sub-chunk iteration shared by readTable and readXML (main.go lines 260-267 and 276-283): starting at the parent header size, while the cursor is inside the declared size window, run the sub-chunk step and advance by the declared size of the sub-chunk it returns.  The step is the readChunk of the enclosing recursion; the fuel argument makes the loop total, and the source loop does not advance on a zero-size sub-chunk. -/
def chunkLoopG (step : Nat → File → File × Except DErr ResChunkHeader) :
    Nat → Nat → Nat → File → File × Except DErr Unit
  | 0, size, offset, f => if offset < size then (f, .error .noFuel) else (f, .ok ())
  | fuel + 1, size, offset, f =>
    if offset < size then
      match step offset f with
      | (f, .ok ch) => chunkLoopG step fuel size (offset + ch.size) f
      | (f, .error e) => (f, .error e)
    else (f, .ok ())

/-- readTable from main.go: the table header read is unchecked; the package slice is pre-allocated at the declared package count; then the sub-chunk loop runs over the size window.  The step argument is the readChunk of the enclosing recursion. -/
def readTable (step : Nat → File → File × Except DErr ResChunkHeader) (loopFuel : Nat)
    (bytes : List Nat) (sr : SRdr) (f : File) : File × Except DErr Unit :=
  let header := (parseResTableHeader bytes sr 0).getD zeroResTableHeader
  let f := { f with tablePackages := List.replicate header.packageCount zeroTablePackage }
  chunkLoopG step loopFuel header.header.size header.header.headerSize f

/-- readXML from main.go: the XML declaration is written first, the chunk header read is unchecked, then the sub-chunk loop runs over the size window. -/
def readXML (step : Nat → File → File × Except DErr ResChunkHeader) (loopFuel : Nat)
    (bytes : List Nat) (sr : SRdr) (f : File) : File × Except DErr Unit :=
  let f := { f with XMLBuffer := f.XMLBuffer ++ "<?xml version=\"1.0\" encoding=\"utf-8\"?>" }
  let header := (parseResChunkHeader bytes sr 0).getD zeroResChunkHeader
  chunkLoopG step loopFuel header.size header.headerSize f

/-- readChunk from main.go: create a section reader at the offset, read the chunk header (checked), dispatch on the chunk type, and return the header.  Types outside the dispatch set fall through with no error and no state change.  In the PACKAGE case the package counter is a variable local to this call, so it is always zero: the decoded package is stored at index 0 of the pre-allocated slice (an empty slice, or a failed package decode whose nil result is dereferenced, is a Go panic).  The fuel argument bounds the recursion depth and the loop lengths. -/
def readChunk : Nat → List Nat → SRdr → Nat → File → File × Except DErr ResChunkHeader
  | 0, _, _, _, f => (f, .error .noFuel)
  | fuel + 1, bytes, r, offset, f =>
    let sr := subSR r offset (9223372036854775807 - offset)
    match parseResChunkHeader bytes sr 0 with
    | none => (f, .error .eof)
    | some chunkHeader =>
      if chunkHeader.type = RES_TABLE_TYPE then
        match readTable (fun o s => readChunk fuel bytes sr o s) fuel bytes sr f with
        | (f, .ok _) => (f, .ok chunkHeader)
        | (f, .error e) => (f, .error e)
      else if chunkHeader.type = RES_XML_TYPE then
        match readXML (fun o s => readChunk fuel bytes sr o s) fuel bytes sr f with
        | (f, .ok _) => (f, .ok chunkHeader)
        | (f, .error e) => (f, .error e)
      else if chunkHeader.type = RES_STRING_POOL_TYPE then
        match ReadStringPool bytes sr with
        | .ok sp => ({ f with stringPool := some sp }, .ok chunkHeader)
        | .error e => ({ f with stringPool := none }, .error e)
      else if chunkHeader.type = RES_XML_RESOURCE_MAP_TYPE then
        match ReadResourceMap bytes sr with
        | .ok m => ({ f with resourceMap := m }, .ok chunkHeader)
        | .error e => ({ f with resourceMap := [] }, .error e)
      else if chunkHeader.type = RES_XML_START_NAMESPACE_TYPE then
        match ReadStartNamespace bytes sr f with
        | (f, .ok _) => (f, .ok chunkHeader)
        | (f, .error e) => (f, .error e)
      else if chunkHeader.type = RES_XML_END_NAMESPACE_TYPE then
        match ReadEndNamespace bytes sr f with
        | (f, .ok _) => (f, .ok chunkHeader)
        | (f, .error e) => (f, .error e)
      else if chunkHeader.type = RES_XML_START_ELEMENT_TYPE then
        match ReadStartElement bytes sr f with
        | (f, .ok _) => (f, .ok chunkHeader)
        | (f, .error e) => (f, .error e)
      else if chunkHeader.type = RES_XML_END_ELEMENT_TYPE then
        match ReadEndElement bytes sr f with
        | (f, .ok _) => (f, .ok chunkHeader)
        | (f, .error e) => (f, .error e)
      else if chunkHeader.type = RES_TABLE_PACKAGE_TYPE then
        match ReadTablePackage fuel bytes sr with
        | .error _ => (f, .error .panic)
        | .ok pkg =>
          let numTablePackages := 0
          if numTablePackages < f.tablePackages.length then
            ({ f with tablePackages := f.tablePackages.set numTablePackages pkg },
              .ok chunkHeader)
          else (f, .error .panic)
      else (f, .ok chunkHeader)

/-- NewFile from main.go: run readChunk at offset 0 on a fresh File and return the File together with a nil error.  The error result of readChunk is discarded by the source, which is why the second component is always none; on an error the partially decoded File is still the state readChunk left behind. -/
def NewFile (fuel : Nat) (bytes : List Nat) : File × Option DErr :=
  let r := fullSR bytes
  let st := (readChunk fuel bytes r 0 initFile).1
  (st, none)

/-- Whether decoding a byte source from the top terminates: some fuel suffices for readChunk not to report fuel exhaustion.  Since fuel is consumed only by the loops and recursion of the source, this is exactly termination of the source decode. -/
def decodeTerminates (bytes : List Nat) : Prop :=
  ∃ fuel, (readChunk fuel bytes (fullSR bytes) 0 initFile).2 ≠ .error .noFuel

/- The typed-value facade file (Bool and Int32).  Its helpers IsResID,
ParseResID and TableFile.GetResource, and the strconv functions, are not
among the provided sources; they are modeled below.  Errors are Go error
values, modeled as Option String; accessors return the same value-error
pairs the Go methods return. -/

/-- Typed values a resource lookup can produce (the interface value returned by GetResource). -/
inductive ResourceValue where
  | b (v : Bool)
  | u32 (v : Nat)
  | s (v : String)
  | raw (v : ResValue)
deriving DecidableEq, Repr

/-- Modelled from the spec: a decoded resource table exposing the get_resource operation of section 6; the TableFile implementation is not among the provided sources, so only its lookup interface is modeled. -/
structure TableFile where
  getResource : Nat → Option ResTableConfig → Except String ResourceValue

/-- Modelled from the spec: whether a textual value has one of the resource-ID forms of section 3, both of which begin with an at sign; the IsResID implementation is not among the provided sources. -/
def IsResID (s : String) : Bool :=
  s.startsWith "@"

/-- Value of one hexadecimal digit character, if any. -/
def hexVal (c : Char) : Option Nat :=
  if 48 ≤ c.toNat ∧ c.toNat ≤ 57 then some (c.toNat - 48)
  else if 97 ≤ c.toNat ∧ c.toNat ≤ 102 then some (c.toNat - 87)
  else if 65 ≤ c.toNat ∧ c.toNat ≤ 70 then some (c.toNat - 55)
  else none

/-- Fold hexadecimal digits left to right. -/
def hexFold : Nat → List Char → Option Nat
  | acc, [] => some acc
  | acc, c :: rest =>
    match hexVal c with
    | some v => hexFold (acc * 16 + v) rest
    | none => none

/-- Modelled from the spec: parse the at-0x hexadecimal resource-ID form of section 3 into the packed 32-bit id; the ParseResID implementation is not among the provided sources. -/
def ParseResID (s : String) : Except String Nat :=
  if s.startsWith "@0x" then
    match hexFold 0 (s.toList.drop 3) with
    | some n => .ok (n % 4294967296)
    | none => .error "invalid resource id"
  else .error "invalid resource id"

/-- Model of Go strconv.ParseBool: the fixed acceptance sets, with false and an error otherwise. -/
def ParseBool (s : String) : Bool × Option String :=
  if s = "1" ∨ s = "t" ∨ s = "T" ∨ s = "true" ∨ s = "TRUE" ∨ s = "True" then (true, none)
  else if s = "0" ∨ s = "f" ∨ s = "F" ∨ s = "false" ∨ s = "FALSE" ∨ s = "False" then (false, none)
  else (false, some "invalid syntax")

/-- Decimal digit fold. -/
def decFold : Nat → List Char → Option Nat
  | acc, [] => some acc
  | acc, c :: rest =>
    if 48 ≤ c.toNat ∧ c.toNat ≤ 57 then decFold (acc * 10 + (c.toNat - 48)) rest
    else none

/-- Model of Go strconv.ParseInt(s, 10, 32) followed by the int32 conversion: optional sign and decimal digits; a syntax error returns zero, an out-of-range value returns the clamped 32-bit bound together with a range error. -/
def ParseInt32 (s : String) : Int × Option String :=
  let core : Bool × List Char :=
    match s.toList with
    | c :: rest => if c.toNat = 45 then (true, rest) else if c.toNat = 43 then (false, rest) else (false, s.toList)
    | [] => (false, [])
  if core.2 = [] then (0, some "invalid syntax")
  else
    match decFold 0 core.2 with
    | none => (0, some "invalid syntax")
    | some n =>
      if core.1 then
        if n ≤ 2147483648 then (-(n : Int), none) else (-2147483648, some "value out of range")
      else
        if n ≤ 2147483647 then ((n : Int), none) else (2147483647, some "value out of range")

/-- Go int32(u) conversion of a uint32 value. -/
def int32OfNat (u : Nat) : Int :=
  if u % 4294967296 < 2147483648 then ((u % 4294967296 : Nat) : Int)
  else ((u % 4294967296 : Nat) : Int) - 4294967296

/-- The Bool facade of the typed-value file: a textual value with optional table and config bindings (nil pointers are none). -/
structure BoolV where
  value : String
  table : Option TableFile
  config : Option ResTableConfig

/-- The Int32 facade of the typed-value file. -/
structure Int32V where
  value : String
  table : Option TableFile
  config : Option ResTableConfig

/-- Bool() from the typed-value file: an empty value is false with no error; a non-resource-ID value goes through strconv.ParseBool; otherwise the id is parsed and resolved through the bound table (a nil table is a Go panic, modeled as an error string) and the result must be a bool. -/
def boolBool (v : BoolV) : Bool × Option String :=
  if v.value = "" then (false, none)
  else if ¬ IsResID v.value then ParseBool v.value
  else
    match ParseResID v.value with
    | .error e => (false, some e)
    | .ok id =>
      match v.table with
      | none => (false, some "panic: nil table")
      | some t =>
        match t.getResource id v.config with
        | .error e => (false, some e)
        | .ok (.b b) => (b, none)
        | .ok _ => (false, some "invalid type")

/-- Int32() from the typed-value file: an empty value is zero with no error; a non-resource-ID value goes through strconv.ParseInt with the int32 conversion; otherwise the id is resolved and the result must be a uint32, returned through the int32 conversion. -/
def int32Int32 (v : Int32V) : Int × Option String :=
  if v.value = "" then (0, none)
  else if ¬ IsResID v.value then ParseInt32 v.value
  else
    match ParseResID v.value with
    | .error e => (0, some e)
    | .ok id =>
      match v.table with
      | none => (0, some "panic: nil table")
      | some t =>
        match t.getResource id v.config with
        | .error e => (0, some e)
        | .ok (.u32 u) => (int32OfNat u, none)
        | .ok _ => (0, some "invalid type")

/- Concrete byte inputs used by the claim theorems. -/

/-- Two bytes of a little-endian u16. -/
def u16b (n : Nat) : List Nat := [n % 256, n / 256 % 256]

/-- Four bytes of a little-endian u32. -/
def u32b (n : Nat) : List Nat := u16b (n % 65536) ++ u16b (n / 65536)

/-- ASCII bytes of a string. -/
def strBytes (s : String) : List Nat := s.toList.map Char.toNat

/-- An empty string pool chunk (28-byte header, no strings, no styles). -/
def emptyPoolBytes : List Nat :=
  u16b 1 ++ u16b 28 ++ u32b 28 ++ u32b 0 ++ u32b 0 ++ u32b 0 ++ u32b 28 ++ u32b 0

/-- A PACKAGE chunk of 340 bytes: 284-byte package header with the given id, a zero name, and two empty string pools at offsets 284 and 312. -/
def pkgBytes (id : Nat) : List Nat :=
  u16b 0x200 ++ u16b 284 ++ u32b 340 ++ u32b id ++ List.replicate 256 0
    ++ u32b 284 ++ u32b 0 ++ u32b 312 ++ u32b 0
    ++ emptyPoolBytes ++ emptyPoolBytes

/-- TABLE chunk declaring two packages and containing two PACKAGE sub-chunks with ids 1 and 2 (692 bytes). -/
def c1bytes : List Nat :=
  u16b 2 ++ u16b 12 ++ u32b 692 ++ u32b 2 ++ pkgBytes 1 ++ pkgBytes 2

/-- UTF-8 string buffer giving different results under the source decoder and the specification decoder: a 5-byte payload "hello" preceded by a character count 5 and a byte length 5. -/
def c2bytes : List Nat := [5, 5, 104, 101, 108, 108, 111]

/-- Byte source whose first chunk has the unknown type 0x0000 (valid 8-byte header, size 8). -/
def c5bytes : List Nat := u16b 0 ++ u16b 8 ++ u32b 8

/-- XML chunk of declared size 16 whose single sub-chunk declares size 0, so the sub-chunk cursor never advances. -/
def c6bytes : List Nat := u16b 3 ++ u16b 8 ++ u32b 16 ++ u16b 0 ++ u16b 8 ++ u32b 0

/-- Binary XML for the minimal-manifest scenario: a string pool (UTF-8), a start-namespace binding the android prefix, a manifest element with one android:versionCode attribute of type INT_DEC and data 1, and the end element. -/
def c7bytes : List Nat :=
  u16b 3 ++ u16b 8 ++ u32b 228
  ++ (u16b 1 ++ u16b 28 ++ u32b 116 ++ u32b 4 ++ u32b 0 ++ u32b 256 ++ u32b 44 ++ u32b 0
      ++ u32b 0 ++ u32b 9 ++ u32b 52 ++ u32b 60
      ++ [8] ++ strBytes "manifest"
      ++ [42] ++ strBytes "http://schemas.android.com/apk/res/android"
      ++ [7] ++ strBytes "android"
      ++ [11] ++ strBytes "versionCode")
  ++ (u16b 0x100 ++ u16b 16 ++ u32b 24 ++ u32b 0 ++ u32b 0 ++ u32b 2 ++ u32b 1)
  ++ (u16b 0x102 ++ u16b 16 ++ u32b 56 ++ u32b 0 ++ u32b 0
      ++ u32b 0xFFFFFFFF ++ u32b 0 ++ u16b 20 ++ u16b 20 ++ u16b 1 ++ u16b 0 ++ u16b 0 ++ u16b 0
      ++ u32b 1 ++ u32b 3 ++ u32b 0xFFFFFFFF ++ u16b 8 ++ [0] ++ [0x10] ++ u32b 1)
  ++ (u16b 0x103 ++ u16b 16 ++ u32b 24 ++ u32b 0 ++ u32b 0 ++ u32b 0xFFFFFFFF ++ u32b 0)

/-- Little-endian byte image of a list of u16 code units. -/
def u16sBytes (us : List Nat) : List Nat := (us.map u16b).flatten

/-- Witness buffer for the single-length-prefix UTF-8 decoding: length 2, payload "hi". -/
def c2wbytes : List Nat := [2, 104, 105]

/-- Witness buffer for ReadUTF16: three code units (one of them a surrogate pair) behind a short length header. -/
def c8bytes : List Nat := [3, 0] ++ u16sBytes [72, 0xD83D, 0xDE00]

/-- A File with a decoded one-string pool, for the attribute-rendering counterexample. -/
def c3file : File :=
  { initFile with stringPool := some ⟨zeroResStringPoolHeader, ["foo"], []⟩ }

/-- An attribute with a nil raw value and a STRING typed value referring to pool index 0. -/
def c3attr : ResXMLTreeAttribute :=
  ⟨0, 0, NilResStringPoolRef, ⟨8, 0, TYPE_STRING, 0⟩⟩

/-- A bound table whose lookups fail, used to show the facade accessors ignore the binding on empty values. -/
def tbl0 : TableFile := ⟨fun _ _ => .error "not found"⟩

/-- A zero configuration record. -/
def cfg0 : ResTableConfig := ⟨0, 0, 0, 0, 0, 0, 0, 0, 0, 0, 0⟩

/-- A sub-chunk step that always succeeds with a chunk of declared size 8, used to witness termination of the sub-chunk iteration. -/
def c6step : Nat → File → File × Except DErr ResChunkHeader :=
  fun _ f => (f, .ok ⟨0, 8, 8⟩)

/-- The File state right after readXML has written the XML declaration on a fresh File. -/
def c6xmlInit : File :=
  { initFile with XMLBuffer := "<?xml version=\"1.0\" encoding=\"utf-8\"?>" }

/- Helper lemmas about reading from concatenated buffers. -/

theorem readU8_full (bytes : List Nat) (i : Nat) :
    readU8 bytes (fullSR bytes) i = bytes.get? i := by
  unfold readU8 fullSR
  by_cases h : 0 + i < bytes.length
  · simp [h]
  · simp only [h, if_false]
    exact (List.get?_eq_none.2 (by omega)).symm

theorem get?_len_add (l1 l2 : List α) (i : Nat) :
    (l1 ++ l2).get? (l1.length + i) = l2.get? i := by
  rw [List.get?_append_right (Nat.le_add_right _ _)]
  simp

theorem readU16le_at (pre tail : List Nat) (n : Nat) (hn : n < 65536) :
    readU16le (pre ++ u16b n ++ tail) (fullSR (pre ++ u16b n ++ tail)) pre.length
      = some n := by
  have h0 : (pre ++ u16b n ++ tail).get? pre.length = some (n % 256) := by
    rw [List.append_assoc]
    have h := get?_len_add pre (u16b n ++ tail) 0
    simpa [u16b] using h
  have h1 : (pre ++ u16b n ++ tail).get? (pre.length + 1) = some (n / 256 % 256) := by
    rw [List.append_assoc]
    have h := get?_len_add pre (u16b n ++ tail) 1
    simpa [u16b] using h
  have hd : n / 256 % 256 = n / 256 := Nat.mod_eq_of_lt (by omega)
  simp only [readU16le, readU8_full, h0, h1, hd, Option.bind_eq_bind, Option.some_bind]
  show some (n % 256 + 256 * (n / 256)) = some n
  exact congrArg some (Nat.mod_add_div n 256)

theorem readU16s_at (us : List Nat) :
    ∀ pre tail : List Nat, (∀ u ∈ us, u < 65536) →
    readU16s (pre ++ u16sBytes us ++ tail) (fullSR (pre ++ u16sBytes us ++ tail))
      pre.length us.length = some us := by
  induction us with
  | nil => intro pre tail _; simp [u16sBytes, readU16s]
  | cons u us ih =>
    intro pre tail h
    have hu : u < 65536 := h u (List.mem_cons_self _ _)
    have hrest : ∀ x ∈ us, x < 65536 := fun x hx => h x (List.mem_cons_of_mem _ hx)
    have key : pre ++ u16sBytes (u :: us) ++ tail
        = (pre ++ u16b u) ++ u16sBytes us ++ tail := by
      simp [u16sBytes]
    rw [key]
    have hfirst := readU16le_at pre (u16sBytes us ++ tail) u hu
    rw [show pre ++ u16b u ++ (u16sBytes us ++ tail) = pre ++ u16b u ++ u16sBytes us ++ tail
      from by simp] at hfirst
    have hrec := ih (pre ++ u16b u) tail hrest
    rw [show (pre ++ u16b u) ++ u16sBytes us ++ tail = pre ++ u16b u ++ u16sBytes us ++ tail
      from by simp] at hrec
    have hlen : pre.length + 2 = (pre ++ u16b u).length := by simp [u16b]
    simp only [List.length_cons, readU16s, hfirst, Option.bind_eq_bind, Option.some_bind]
    rw [hlen, hrec]
    rfl

theorem readU8s_at (payload : List Nat) :
    ∀ pre tail : List Nat,
    readU8s (pre ++ payload ++ tail) (fullSR (pre ++ payload ++ tail))
      pre.length payload.length = some payload := by
  induction payload with
  | nil => intro pre tail; simp [readU8s]
  | cons b bs ih =>
    intro pre tail
    have h0 : (pre ++ (b :: bs) ++ tail).get? pre.length = some b := by
      rw [List.append_assoc]
      have h := get?_len_add pre (b :: bs ++ tail) 0
      simpa using h
    have hrec := ih (pre ++ [b]) tail
    have hlen : pre.length + 1 = (pre ++ [b]).length := by simp
    simp only [List.length_cons, readU8s, readU8_full, h0, Option.bind_eq_bind,
      Option.some_bind]
    rw [hlen]
    rw [show pre ++ b :: bs ++ tail = (pre ++ [b]) ++ bs ++ tail by simp]
    rw [hrec]
    rfl
theorem exceptBind_ok (x : α) (f : α → Except ε β) :
    (Except.ok x >>= f : Except ε β) = f x := rfl

theorem exceptBind_err (e : ε) (f : α → Except ε β) :
    (Except.error e >>= f : Except ε β) = Except.error e := rfl

/-- C2 counterexample: on the buffer c2bytes the source decoder ReadUTF8 consumes its single length prefix and returns a string beginning with the second length byte, while a decoder following the claim (two prefixes: character count then byte length) returns "hello"; the two disagree, so ReadUTF8 does not read two length prefixes. -/
theorem c2_counterexample :
    ReadUTF8 c2bytes (fullSR c2bytes) 0 = .ok "\x05hell"
    ∧ ReadUTF8Spec c2bytes (fullSR c2bytes) 0 = .ok "hello"
    ∧ ("\x05hell" : String) ≠ "hello" :=
  ⟨rfl, rfl, by decide⟩

/-- C2 (amended): in UTF-8 mode the decoder reads a single 1-to-2-byte length prefix (the second byte present iff the high bit of the first is set, combined as ((b1 and 0x7F) shifted left 8) + b2), treats it directly as the payload byte length with no separate character-count prefix, and then reads exactly that many bytes of payload, decoded as UTF-8. -/
theorem c2_ReadUTF8_single_length :
    (∀ (pre payload tail : List Nat) (f1 : Nat),
        f1 &&& 128 = 0 → f1 < 256 → payload.length = f1 →
        ReadUTF8 (pre ++ [f1] ++ payload ++ tail)
          (fullSR (pre ++ [f1] ++ payload ++ tail)) pre.length
          = .ok (String.mk (utf8Decode payload)))
    ∧ (∀ (pre payload tail : List Nat) (f1 f2 : Nat),
        f1 &&& 128 ≠ 0 → f1 < 256 → f2 < 256 →
        payload.length = ((f1 &&& 127) <<< 8) + f2 →
        ReadUTF8 (pre ++ [f1, f2] ++ payload ++ tail)
          (fullSR (pre ++ [f1, f2] ++ payload ++ tail)) pre.length
          = .ok (String.mk (utf8Decode payload))) := by
  constructor
  · intro pre payload tail f1 hbit _ hlen
    have h0 : (pre ++ [f1] ++ payload ++ tail).get? pre.length = some f1 := by
      rw [show pre ++ [f1] ++ payload ++ tail = pre ++ (f1 :: (payload ++ tail)) from by simp]
      have h := get?_len_add pre (f1 :: (payload ++ tail)) 0
      simpa using h
    have hrec := readU8s_at payload (pre ++ [f1]) tail
    rw [show (pre ++ [f1]) ++ payload ++ tail = pre ++ [f1] ++ payload ++ tail from by simp]
      at hrec
    have hlen1 : (pre ++ [f1]).length = pre.length + 1 := by simp
    rw [hlen1, hlen] at hrec
    simp only [ReadUTF8, readU8_full, liftO, h0, exceptBind_ok]
    rw [if_neg (fun hne => hne hbit), hrec]
    rfl
  · intro pre payload tail f1 f2 hbit _ _ hlen
    have h0 : (pre ++ [f1, f2] ++ payload ++ tail).get? pre.length = some f1 := by
      rw [show pre ++ [f1, f2] ++ payload ++ tail
        = pre ++ (f1 :: f2 :: (payload ++ tail)) from by simp]
      have h := get?_len_add pre (f1 :: f2 :: (payload ++ tail)) 0
      simpa using h
    have h1 : (pre ++ [f1, f2] ++ payload ++ tail).get? (pre.length + 1) = some f2 := by
      rw [show pre ++ [f1, f2] ++ payload ++ tail
        = pre ++ (f1 :: f2 :: (payload ++ tail)) from by simp]
      have h := get?_len_add pre (f1 :: f2 :: (payload ++ tail)) 1
      simpa using h
    have hrec := readU8s_at payload (pre ++ [f1, f2]) tail
    rw [show (pre ++ [f1, f2]) ++ payload ++ tail = pre ++ [f1, f2] ++ payload ++ tail
      from by simp] at hrec
    have hlen2 : (pre ++ [f1, f2]).length = pre.length + 2 := by simp
    rw [hlen2, hlen] at hrec
    simp only [ReadUTF8, readU8_full, liftO, h0, exceptBind_ok]
    rw [if_pos hbit]
    simp only [h1, exceptBind_ok]
    rw [hrec]
    rfl

/-- C2 witness: the short length form at a concrete input, via the amended theorem. -/
theorem c2_witness :
    ReadUTF8 ([] ++ [2] ++ [104, 105] ++ []) (fullSR ([] ++ [2] ++ [104, 105] ++ [])) 0
      = .ok (String.mk (utf8Decode [104, 105]))
    ∧ c2wbytes = [] ++ [2] ++ [104, 105] ++ []
    ∧ String.mk (utf8Decode [104, 105]) = "hi" :=
  ⟨c2_ReadUTF8_single_length.1 [] [104, 105] [] 2 (by decide) (by decide) (by decide),
    by decide, by decide⟩

/-- C8: ReadUTF16 computes the code-unit count exactly as the claim states: a first u16 with clear high bit is the count itself; with the high bit set a second u16 is read and the count is ((L1 and 0x7FFF) shifted left 16) + L2; exactly that many 16-bit code units follow and are decoded as UTF-16LE with surrogate-pair handling (utf16Decode). -/
theorem c8_ReadUTF16_length_header :
    (∀ (pre tail us : List Nat) (f1 : Nat),
        f1 &&& 32768 = 0 → f1 < 65536 → (∀ u ∈ us, u < 65536) → us.length = f1 →
        ReadUTF16 (pre ++ u16b f1 ++ u16sBytes us ++ tail)
          (fullSR (pre ++ u16b f1 ++ u16sBytes us ++ tail)) pre.length
          = .ok (String.mk (utf16Decode us)))
    ∧ (∀ (pre tail us : List Nat) (f1 f2 : Nat),
        f1 &&& 32768 ≠ 0 → f1 < 65536 → f2 < 65536 → (∀ u ∈ us, u < 65536) →
        us.length = ((f1 &&& 32767) <<< 16) + f2 →
        ReadUTF16 (pre ++ u16b f1 ++ u16b f2 ++ u16sBytes us ++ tail)
          (fullSR (pre ++ u16b f1 ++ u16b f2 ++ u16sBytes us ++ tail)) pre.length
          = .ok (String.mk (utf16Decode us))) := by
  constructor
  · intro pre tail us f1 hbit hf1 hus hlen
    have h0 := readU16le_at pre (u16sBytes us ++ tail) f1 hf1
    rw [show pre ++ u16b f1 ++ (u16sBytes us ++ tail) = pre ++ u16b f1 ++ u16sBytes us ++ tail
      from by simp] at h0
    have hrec := readU16s_at us (pre ++ u16b f1) tail hus
    rw [show (pre ++ u16b f1) ++ u16sBytes us ++ tail = pre ++ u16b f1 ++ u16sBytes us ++ tail
      from by simp] at hrec
    have hlen1 : (pre ++ u16b f1).length = pre.length + 2 := by simp [u16b]
    rw [hlen1, hlen] at hrec
    simp only [ReadUTF16, liftO, h0, exceptBind_ok]
    rw [if_neg (fun hne => hne hbit), hrec]
    rfl
  · intro pre tail us f1 f2 hbit hf1 hf2 hus hlen
    have h0 := readU16le_at pre (u16b f2 ++ u16sBytes us ++ tail) f1 hf1
    rw [show pre ++ u16b f1 ++ (u16b f2 ++ u16sBytes us ++ tail)
      = pre ++ u16b f1 ++ u16b f2 ++ u16sBytes us ++ tail from by simp] at h0
    have h1 := readU16le_at (pre ++ u16b f1) (u16sBytes us ++ tail) f2 hf2
    rw [show (pre ++ u16b f1) ++ u16b f2 ++ (u16sBytes us ++ tail)
      = pre ++ u16b f1 ++ u16b f2 ++ u16sBytes us ++ tail from by simp] at h1
    have hlen1 : (pre ++ u16b f1).length = pre.length + 2 := by simp [u16b]
    rw [hlen1] at h1
    have hrec := readU16s_at us (pre ++ u16b f1 ++ u16b f2) tail hus
    rw [show (pre ++ u16b f1 ++ u16b f2) ++ u16sBytes us ++ tail
      = pre ++ u16b f1 ++ u16b f2 ++ u16sBytes us ++ tail from by simp] at hrec
    have hlen2 : (pre ++ u16b f1 ++ u16b f2).length = pre.length + 4 := by simp [u16b]
    rw [hlen2, hlen] at hrec
    simp only [ReadUTF16, liftO, h0, exceptBind_ok]
    rw [if_pos hbit]
    simp only [h1, exceptBind_ok]
    rw [hrec]
    rfl

/-- C8 witness: a concrete short-form UTF-16 buffer containing a surrogate pair, via the theorem. -/
theorem c8_witness :
    ReadUTF16 ([] ++ u16b 3 ++ u16sBytes [72, 55357, 56832] ++ [])
      (fullSR ([] ++ u16b 3 ++ u16sBytes [72, 55357, 56832] ++ [])) 0
      = .ok (String.mk (utf16Decode [72, 55357, 56832]))
    ∧ c8bytes = [] ++ u16b 3 ++ u16sBytes [72, 55357, 56832] ++ []
    ∧ String.mk (utf16Decode [72, 55357, 56832])
      = String.mk [Char.ofNat 72, Char.ofNat 128512] :=
  ⟨c8_ReadUTF16_length_header.1 [] [] [72, 55357, 56832] 3 (by decide) (by decide)
      (by decide) (by decide),
    by decide, by decide⟩

/-- C3 counterexample: an attribute with nil raw_value and a STRING typed value referring to pool index 0, on a file whose pool holds "foo" at index 0: the rendered value is the reference fallback, not the pool string. -/
theorem c3_counterexample :
    renderAttrValue c3file c3attr = .ok "@0x00000000"
    ∧ GetString c3file 0 = .ok "foo"
    ∧ ("@0x00000000" : String) ≠ "foo" :=
  ⟨rfl, rfl, by decide⟩

/-- C3 (amended): for every attribute with nil raw_value whose typed value has data_type STRING, the value emitted is the default-branch rendering, an at sign followed by 0x and the eight-digit uppercase hex of data; the switch has no STRING case, so the pool is not consulted. -/
theorem c3_string_type_renders_reference (f : File) (attr : ResXMLTreeAttribute)
    (h1 : attr.rawValue = NilResStringPoolRef) (h2 : attr.typedValue.dataType = TYPE_STRING) :
    renderAttrValue f attr = .ok ("@0x" ++ hex8 attr.typedValue.data) := by
  simp [renderAttrValue, h1, h2, TYPE_NULL, TYPE_REFERENCE, TYPE_INT_DEC, TYPE_INT_HEX,
    TYPE_INT_BOOLEAN, TYPE_STRING, NilResStringPoolRef]

/-- C3 witness: the amended rendering at a concrete attribute with data 5. -/
theorem c3_witness :
    renderAttrValue initFile ⟨0, 0, NilResStringPoolRef, ⟨8, 0, TYPE_STRING, 5⟩⟩
      = .ok ("@0x" ++ hex8 5)
    ∧ ("@0x" ++ hex8 5) = "@0x00000005" :=
  ⟨c3_string_type_renders_reference initFile ⟨0, 0, NilResStringPoolRef, ⟨8, 0, TYPE_STRING, 5⟩⟩
      rfl rfl,
    by decide⟩

/-- C4: on the empty byte source the chunk-header read inside readChunk fails with a read error, but NewFile discards the result of readChunk and returns a nil error, so the decoder error never reaches the caller. -/
theorem c4_NewFile_swallows_error :
    (readChunk 10 [] (fullSR []) 0 initFile).2 = .error .eof
    ∧ NewFile 10 [] = (initFile, none) :=
  ⟨rfl, rfl⟩

/-- C5 counterexample: a byte source whose first chunk has type 0x0000, neither XML nor TABLE: readChunk succeeds, returning the parsed header with no error and an unchanged File, and NewFile reports no error; there is no BadMagic rejection. -/
theorem c5_counterexample :
    readChunk 10 c5bytes (fullSR c5bytes) 0 initFile = (initFile, .ok ⟨0, 8, 8⟩)
    ∧ (NewFile 10 c5bytes).2 = none :=
  ⟨rfl, rfl⟩

/-- C5 (amended): a chunk whose parsed type is outside the dispatch set (TABLE, XML, STRING_POOL, RESOURCE_MAP, START and END NAMESPACE, START and END ELEMENT, PACKAGE) is silently skipped: readChunk returns the parsed header with no error and no state change, for the first chunk as for any other. -/
theorem c5_unknown_type_skipped (fuel : Nat) (bytes : List Nat) (r : SRdr) (offset : Nat)
    (f : File) (h : ResChunkHeader)
    (hp : parseResChunkHeader bytes (subSR r offset (9223372036854775807 - offset)) 0 = some h)
    (h1 : h.type ≠ RES_TABLE_TYPE) (h2 : h.type ≠ RES_XML_TYPE)
    (h3 : h.type ≠ RES_STRING_POOL_TYPE) (h4 : h.type ≠ RES_XML_RESOURCE_MAP_TYPE)
    (h5 : h.type ≠ RES_XML_START_NAMESPACE_TYPE) (h6 : h.type ≠ RES_XML_END_NAMESPACE_TYPE)
    (h7 : h.type ≠ RES_XML_START_ELEMENT_TYPE) (h8 : h.type ≠ RES_XML_END_ELEMENT_TYPE)
    (h9 : h.type ≠ RES_TABLE_PACKAGE_TYPE) :
    readChunk (fuel + 1) bytes r offset f = (f, .ok h) := by
  simp only [readChunk, hp]
  rw [if_neg h1, if_neg h2, if_neg h3, if_neg h4, if_neg h5, if_neg h6, if_neg h7, if_neg h8,
    if_neg h9]

/-- C5 witness: a first chunk of the unhandled CDATA type 0x0104 decodes to a plain skip, via the amended theorem. -/
theorem c5_witness :
    readChunk 10 [4, 1, 8, 0, 8, 0, 0, 0] (fullSR [4, 1, 8, 0, 8, 0, 0, 0]) 0 initFile
      = (initFile, .ok ⟨260, 8, 8⟩) :=
  c5_unknown_type_skipped 9 [4, 1, 8, 0, 8, 0, 0, 0] (fullSR [4, 1, 8, 0, 8, 0, 0, 0]) 0
    initFile ⟨260, 8, 8⟩ rfl (by decide) (by decide) (by decide) (by decide) (by decide)
    (by decide) (by decide) (by decide) (by decide)

/-- C9: a Bool facade with empty textual value yields false with nil error and an Int32 facade with empty textual value yields zero with nil error, whatever table or config is bound. -/
theorem c9_empty_value_accessors (b : BoolV) (i : Int32V)
    (hb : b.value = "") (hi : i.value = "") :
    boolBool b = (false, none) ∧ int32Int32 i = (0, none) := by
  constructor
  · simp [boolBool, hb]
  · simp [int32Int32, hi]

/-- C9 witness: the empty-value accessors on facades with a bound table and config. -/
theorem c9_witness :
    boolBool ⟨"", some tbl0, some cfg0⟩ = (false, none)
    ∧ int32Int32 ⟨"", some tbl0, some cfg0⟩ = (0, none) :=
  c9_empty_value_accessors ⟨"", some tbl0, some cfg0⟩ ⟨"", some tbl0, some cfg0⟩ rfl rfl

/-- C10: GetString is total only on the sentinel and on in-range references: the sentinel yields the empty string; a non-sentinel reference panics when no string pool was decoded or when it is at or beyond the pool length, and yields a string exactly when it is in range. -/
theorem c10_GetString_partiality (f : File) (ref : Nat) :
    (ref = NilResStringPoolRef → GetString f ref = .ok "")
    ∧ (ref ≠ NilResStringPoolRef → f.stringPool = none → GetString f ref = .error .panic)
    ∧ (∀ sp, ref ≠ NilResStringPoolRef → f.stringPool = some sp →
        sp.strings.length ≤ ref → GetString f ref = .error .panic)
    ∧ (∀ sp, ref ≠ NilResStringPoolRef → f.stringPool = some sp →
        ref < sp.strings.length → ∃ s, GetString f ref = .ok s) := by
  refine ⟨?_, ?_, ?_, ?_⟩
  · intro h; simp [GetString, h]
  · intro h hp; simp [GetString, h, hp]
  · intro sp h hp hlen
    simp [GetString, h, hp, List.getElem?_eq_none hlen]
  · intro sp h hp hlt
    refine ⟨sp.strings.get ⟨ref, hlt⟩, ?_⟩
    simp [GetString, h, hp, List.getElem?_eq_getElem hlt, List.get_eq_getElem]

/-- C10 witness: a panic on a fresh File with no pool, and the sentinel on a File with a pool. -/
theorem c10_witness :
    GetString initFile 0 = .error .panic
    ∧ GetString c3file 4294967295 = .ok "" :=
  ⟨(c10_GetString_partiality initFile 0).2.1 (by decide) rfl,
    (c10_GetString_partiality c3file 4294967295).1 (by decide)⟩

set_option maxRecDepth 100000
set_option maxHeartbeats 4000000

/-- C1: evaluating the decoder on a TABLE declaring two packages with two PACKAGE sub-chunks of ids 1 and 2: the stored list has the declared length 2, but element 0 holds the second decoded package (id 2) and element 1 is still the zero value, because readChunk keeps the package counter in a local variable that restarts at zero for every chunk and its increment is dead, so every package is stored at index 0. -/
theorem c1_table_packages_eval :
    (readChunk 50 c1bytes (fullSR c1bytes) 0 initFile).2 = .ok ⟨RES_TABLE_TYPE, 12, 692⟩
    ∧ ((readChunk 50 c1bytes (fullSR c1bytes) 0 initFile).1.tablePackages.map
        (fun p => p.header.id)) = [2, 0]
    ∧ (readChunk 50 c1bytes (fullSR c1bytes) 0 initFile).1.tablePackages.get? 1
      = some zeroTablePackage :=
  ⟨rfl, rfl, rfl⟩

/-- C7: the decoder output for the minimal-manifest binary XML is exactly the expected document, and the decode succeeds. -/
theorem c7_minimal_manifest :
    (NewFile 20 c7bytes).1.XMLBuffer
      = "<?xml version=\"1.0\" encoding=\"utf-8\"?><manifest xmlns:android=\"http://schemas.android.com/apk/res/android\" android:versionCode=\"1\"></manifest>"
    ∧ (readChunk 20 c7bytes (fullSR c7bytes) 0 initFile).2 = .ok ⟨RES_XML_TYPE, 8, 228⟩ :=
  ⟨rfl, rfl⟩

theorem c6_inner (m : Nat) (f : File) :
    readChunk (m + 1) c6bytes ⟨0, 16⟩ 8 f = (f, .ok ⟨0, 8, 0⟩) := rfl

theorem c6_loop (n : Nat) : ∀ (k : Nat) (f : File),
    (chunkLoopG (fun o s => readChunk n c6bytes ⟨0, 16⟩ o s) k 16 8 f).2
      = .error .noFuel := by
  intro k
  induction k with
  | zero => intro f; rfl
  | succ k ih =>
    intro f
    cases n with
    | zero => rfl
    | succ m =>
      have h := c6_inner m f
      simp only [chunkLoopG, if_pos (by decide : (8 : Nat) < 16), h]
      simpa using ih f

/-- C6 counterexample: on an XML chunk whose single sub-chunk declares size 0 the cursor never advances, so no amount of fuel lets the decode finish: the sub-chunk iteration of the source runs forever on this input. -/
theorem c6_counterexample : ¬ decodeTerminates c6bytes := by
  rintro ⟨fuel, hne⟩
  apply hne
  cases fuel with
  | zero => rfl
  | succ n =>
    have key : readChunk (n + 1) c6bytes (fullSR c6bytes) 0 initFile
        = (match chunkLoopG (fun o s => readChunk n c6bytes ⟨0, 16⟩ o s) n 16 8 c6xmlInit with
           | (f2, .ok _) => (f2, Except.ok (⟨3, 8, 16⟩ : ResChunkHeader))
           | (f2, .error e) => (f2, .error e)) := rfl
    rw [key]
    have hl := c6_loop n n c6xmlInit
    rcases hp : chunkLoopG (fun o s => readChunk n c6bytes ⟨0, 16⟩ o s) n 16 8 c6xmlInit
      with ⟨f2, r⟩
    rw [hp] at hl
    simp only at hl
    rw [hl]

theorem chunkLoopG_total_aux (step : Nat → File → File × Except DErr ResChunkHeader)
    (size : Nat)
    (hstep : ∀ o s, (step o s).2 ≠ .error .noFuel)
    (hsize : ∀ o s h, (step o s).2 = .ok h → 1 ≤ h.size) :
    ∀ d start f, size - start ≤ d →
      ∃ fuel, (chunkLoopG step fuel size start f).2 ≠ .error .noFuel := by
  intro d
  induction d with
  | zero =>
    intro start f hd
    refine ⟨0, ?_⟩
    have hge : ¬ start < size := by omega
    simp [chunkLoopG, hge]
  | succ d ih =>
    intro start f hd
    by_cases hlt : start < size
    · rcases hq : step start f with ⟨f2, r⟩
      cases r with
      | error e =>
        refine ⟨1, ?_⟩
        have he : e ≠ .noFuel := by
          intro hee
          exact hstep start f (by rw [hq, hee])
        simp only [chunkLoopG, if_pos hlt, hq]
        simpa using he
      | ok h =>
        have h1 : 1 ≤ h.size := hsize start f h (by rw [hq])
        have hd2 : size - (start + h.size) ≤ d := by omega
        rcases ih (start + h.size) f2 hd2 with ⟨fl, hfl⟩
        refine ⟨fl + 1, ?_⟩
        simp only [chunkLoopG, if_pos hlt, hq]
        exact hfl
    · refine ⟨0, ?_⟩
      simp [chunkLoopG, hlt]

/-- C6 (amended): the sub-chunk iteration of readTable and readXML terminates provided the per-chunk step never itself runs out of fuel and every sub-chunk it returns declares a size of at least 1: the cursor then strictly advances and leaves the declared size window after finitely many steps.  The unamended claim fails because a declared sub-chunk size of 0 leaves the cursor in place forever (see the counterexample). -/
theorem c6_subchunk_iteration_terminates
    (step : Nat → File → File × Except DErr ResChunkHeader) (size start : Nat) (f : File)
    (hstep : ∀ o s, (step o s).2 ≠ .error .noFuel)
    (hsize : ∀ o s h, (step o s).2 = .ok h → 1 ≤ h.size) :
    ∃ fuel, (chunkLoopG step fuel size start f).2 ≠ .error .noFuel :=
  chunkLoopG_total_aux step size hstep hsize (size - start) start f (le_refl _)

/-- C6 witness: the iteration over a window of size 16 starting at 8 with unit-size-8 sub-chunk steps terminates, and one loop round suffices concretely. -/
theorem c6_witness :
    (∃ fuel, (chunkLoopG c6step fuel 16 8 initFile).2 ≠ .error .noFuel)
    ∧ (chunkLoopG c6step 1 16 8 initFile).2 = .ok () :=
  ⟨c6_subchunk_iteration_terminates c6step 16 8 initFile
      (fun o s => by simp [c6step])
      (fun o s h hh => by
        have hv : h = ⟨0, 8, 8⟩ := by
          simpa [c6step] using hh.symm
        rw [hv]
        decide),
    rfl⟩
